import Mathlib

/-!
Verification of the intercom broker
(`homeassistant/custom_components/intercom_native/broker.py` together with the
constants in `const.py`).

The broker state (`IntercomBroker`) is embedded shallowly: device connections
are identified by `ConnId` (Python object identity of `DeviceConnection`;
the generated dataclass equality degenerates to identity because the
`reader`/`writer` fields compare by identity), byte strings are `List Nat`,
dictionaries are association lists, and every message handler becomes a pure
function from a broker state to a new state together with the list of frames
written (`Msg`) and the list of observer callbacks fired (`Ev`).

Modelling notes, faithful to the source:
* `payload.decode(utf8).rstrip(nul)` is modelled byte-wise by `rstripNul`
  (a trailing `0x00` byte is exactly a trailing NUL code point in UTF-8);
  a payload that is not valid UTF-8 raises and tears the connection down
  before the handler logic runs, so handlers are modelled on decodable
  payloads.
* `asyncio` task plumbing (`create_task`, `cancel`) is reduced to the
  `timeout_armed` flag of a call (`timeout_task is not None`); the
  `last_ping` timestamp bookkeeping and socket writes are not part of any
  verified property and are dropped, except that closing a socket is
  recorded in the `closed` flag.
* `_end_call` in the source pops the call from `self.calls` and then, when a
  timeout task is armed, executes `await call.timeout_task` — a suspension
  point — before clearing the participants' `current_call_id`.  The state
  observable at that suspension point is `endCallPop`; the completed handler
  is `endCall`.
-/

namespace Intercom

/-- Connection identity (Python object identity of a `DeviceConnection`). -/
abbrev ConnId := Nat

/-- Byte strings (payloads and device identifiers). -/
abbrev Bytes := List Nat

/-- Broker message types, from `const.py`. -/
def BROKER_MSG_REGISTER : Nat := 0x10
def BROKER_MSG_INVITE : Nat := 0x11
def BROKER_MSG_RING : Nat := 0x12
def BROKER_MSG_ANSWER : Nat := 0x13
def BROKER_MSG_DECLINE : Nat := 0x14
def BROKER_MSG_HANGUP : Nat := 0x15
def BROKER_MSG_BYE : Nat := 0x16
def BROKER_MSG_AUDIO : Nat := 0x17
def BROKER_MSG_CONTACTS : Nat := 0x18
def BROKER_MSG_PING : Nat := 0x19
def BROKER_MSG_PONG : Nat := 0x1A
def BROKER_MSG_ERROR : Nat := 0x1B

/-- Broker error codes, from `const.py`. -/
def BROKER_ERR_NOT_FOUND : Nat := 0x01
def BROKER_ERR_BUSY : Nat := 0x02
def BROKER_ERR_TIMEOUT : Nat := 0x03
def BROKER_ERR_PROTOCOL : Nat := 0x04

/-- Decline reason default, from `const.py`. -/
def DECLINE_BUSY : Nat := 0x00

/-- Audio queue capacity (`BROKER_AUDIO_QUEUE_SIZE = 10` in `const.py`). -/
def BROKER_AUDIO_QUEUE_SIZE : Nat := 10

/-- Keepalive period (`BROKER_PING_INTERVAL = 10.0` seconds in `const.py`);
imported by `broker.py` but never used there. -/
def BROKER_PING_INTERVAL : Nat := 10

/-- Call states (`CALL_STATE_RINGING` / `CALL_STATE_IN_CALL` in `const.py`). -/
inductive CallState where
  | ringing
  | inCall
deriving DecidableEq, Inhabited, Repr

/-- One `DeviceConnection` (broker.py lines 55-71), without the raw streams. -/
structure Conn where
  device_id : Bytes := []
  current_call_id : Nat := 0
  audio_queue : List (Nat × Bytes) := []
  audio_event : Bool := false
  closed : Bool := false
deriving DecidableEq, Inhabited, Repr

/-- One `Call` (broker.py lines 74-82); `timeout_armed` models
`timeout_task is not None`. -/
structure Call where
  call_id : Nat
  caller : ConnId
  callee : ConnId
  state : CallState := .ringing
  timeout_armed : Bool := false
deriving DecidableEq, Inhabited, Repr

/-- A frame written by the broker (`_send_message` arguments). -/
structure Msg where
  dest : ConnId
  msg_type : Nat
  flags : Nat
  call_id : Nat
  seq : Nat
  payload : Bytes
deriving DecidableEq, Inhabited, Repr

/-- Observer callbacks fired by the broker (`_on_*` hooks). -/
inductive Ev where
  | deviceConnected (id : Bytes)
  | deviceDisconnected (id : Bytes)
  | callStarted (cid : Nat) (caller callee : Bytes)
  | callEnded (cid : Nat)
deriving DecidableEq, Repr

/-- The mutable broker state (`IntercomBroker` fields, broker.py 88-99). -/
structure Broker where
  conns : List (ConnId × Conn)
  devices : List (Bytes × ConnId)
  calls : List (Nat × Call)
  next_call_id : Nat := 1
deriving DecidableEq, Repr

/-- Association-list lookup (Python `dict.get`). -/
def lookupA [DecidableEq α] : List (α × β) → α → Option β
  | [], _ => none
  | (k, v) :: t, a => if k = a then some v else lookupA t a

/-- Association-list removal (Python `del d[k]` / `d.pop(k)`). -/
def eraseKey [DecidableEq α] (l : List (α × β)) (k : α) : List (α × β) :=
  l.filter (fun p => decide (p.1 ≠ k))

/-- Association-list insertion (Python `d[k] = v`: replace in place if the key
is present, otherwise append). -/
def insertA [DecidableEq α] (l : List (α × β)) (k : α) (v : β) : List (α × β) :=
  if (lookupA l k).isSome then l.map (fun p => if p.1 = k then (k, v) else p)
  else l ++ [(k, v)]

/-- Number of entries of an association list carrying a given key. -/
def countKey [DecidableEq α] (l : List (α × β)) (k : α) : Nat :=
  (l.filter (fun p => decide (p.1 = k))).length

/-- Trailing-NUL trimming: `payload.decode(utf8).rstrip(nul)` on bytes. -/
def rstripNul (s : Bytes) : Bytes :=
  (s.reverse.dropWhile (fun b => b == 0)).reverse

/-- Bounded append of `collections.deque(maxlen := cap)`: when the queue is
full the oldest (front) element is discarded; the producer never blocks. -/
def dequeAppend (cap : Nat) (q : List α) (x : α) : List α :=
  if q.length < cap then q ++ [x] else q.tail ++ [x]

/-- Read a connection's state (dereferencing the `DeviceConnection` object). -/
def getConn (b : Broker) (c : ConnId) : Conn :=
  (lookupA b.conns c).getD default

/-- Mutate one connection's fields in place. -/
def setConn (b : Broker) (c : ConnId) (f : Conn → Conn) : Broker :=
  { b with conns := b.conns.map (fun p => if p.1 = c then (p.1, f p.2) else p) }

/-- Conditional clearing in `_end_call`: the `current_call_id` is zeroed only
if it still equals the call being ended (broker.py 498-501). -/
def clearIfEq (b : Broker) (c : ConnId) (cid : Nat) : Broker :=
  if (getConn b c).current_call_id = cid then
    setConn b c (fun cn => { cn with current_call_id := 0 })
  else b

/-- Frame constructor (`_send_message` header fields, broker.py 522-541). -/
def mkMsg (dest : ConnId) (msg_type flags call_id seq : Nat) (payload : Bytes) : Msg :=
  ⟨dest, msg_type, flags, call_id, seq, payload⟩

/-- Error frame: `_send_error` sends `ERROR` with a one-byte payload holding
the code (broker.py 543-549). -/
def sendError (dest : ConnId) (call_id code : Nat) : Msg :=
  mkMsg dest BROKER_MSG_ERROR 0 call_id 0 [code]

/-- Busy test used by the roster: `is_device_in_call` (broker.py 145-148). -/
def isDeviceInCall (b : Broker) (did : Bytes) : Bool :=
  match lookupA b.devices did with
  | some c => decide ((getConn b c).current_call_id ≠ 0)
  | none => false

/-- JSON byte rendering of one roster entry, matching `json.dumps` of
`{id: ..., name: ..., busy: ...}` with default separators.  The id bytes are
spliced verbatim: this is exact for identifiers made of printable ASCII
without quote or backslash, and the `json.dumps` escaping of other bytes is
not modelled - no theorem below inspects `CONTACTS` payload bytes. -/
def contactEntryBytes (id : Bytes) (busy : Bool) : Bytes :=
  [0x7b, 0x22, 0x69, 0x64, 0x22, 0x3a, 0x20, 0x22] ++ id ++
  [0x22, 0x2c, 0x20, 0x22, 0x6e, 0x61, 0x6d, 0x65, 0x22, 0x3a, 0x20, 0x22] ++ id ++
  [0x22, 0x2c, 0x20, 0x22, 0x62, 0x75, 0x73, 0x79, 0x22, 0x3a, 0x20] ++
  (if busy then [0x74, 0x72, 0x75, 0x65] else [0x66, 0x61, 0x6c, 0x73, 0x65]) ++
  [0x7d]

/-- Comma-space join of rendered roster entries. -/
def joinBytes (sep : Bytes) : List Bytes → Bytes
  | [] => []
  | [x] => x
  | x :: y :: t => x ++ sep ++ joinBytes sep (y :: t)

/-- JSON byte rendering of the roster array. -/
def encodeContacts (entries : List (Bytes × Bool)) : Bytes :=
  [0x5b] ++ joinBytes [0x2c, 0x20] (entries.map (fun e => contactEntryBytes e.1 e.2)) ++ [0x5d]

/-- Roster visible to connection `c`: every registered id except the
recipient's own, with its busy flag (`_send_contacts`, broker.py 551-561). -/
def rosterFor (b : Broker) (c : ConnId) : List (Bytes × Bool) :=
  b.devices.filterMap (fun p =>
    if p.1 = (getConn b c).device_id then none
    else some (p.1, isDeviceInCall b p.1))

/-- The `CONTACTS` frame sent to one device (`_send_contacts`). -/
def sendContacts (b : Broker) (c : ConnId) : Msg :=
  mkMsg c BROKER_MSG_CONTACTS 0 0 0 (encodeContacts (rosterFor b c))

/-- Roster broadcast to every registered device (`_broadcast_contacts`,
broker.py 563-566). -/
def broadcastContacts (b : Broker) : List Msg :=
  b.devices.map (fun p => sendContacts b p.2)

/-- State observable at the `await call.timeout_task` suspension point inside
`_end_call` (broker.py 485-495): the call has been popped from the table but
the participants' `current_call_id` fields are not yet cleared.  This point
is reached exactly when the call still has an armed timeout task. -/
def endCallPop (b : Broker) (cid : Nat) : Broker :=
  { b with calls := eraseKey b.calls cid }

/-- Completed `_end_call(call_id, notify_peer, hangup_by)` (broker.py
478-516): pop the call, clear both participants' `current_call_id` if still
equal to this call id, send `BYE` to the peer (or to both parties when no
`hangup_by` is given), and fire `on_call_ended`. -/
def endCall (b : Broker) (cid : Nat) (notify_peer : Bool) (hangup_by : Option ConnId) :
    Broker × List Msg × List Ev :=
  match lookupA b.calls cid with
  | none => (b, [], [])
  | some call =>
    let mid := endCallPop b cid
    let b1 := clearIfEq mid call.caller cid
    let b2 := clearIfEq b1 call.callee cid
    let msgs :=
      if notify_peer then
        match hangup_by with
        | some h =>
          [mkMsg (if h = call.caller then call.callee else call.caller)
            BROKER_MSG_BYE 0 cid 0 []]
        | none =>
          [mkMsg call.caller BROKER_MSG_BYE 0 cid 0 [],
           mkMsg call.callee BROKER_MSG_BYE 0 cid 0 []]
      else []
    (b2, msgs, [Ev.callEnded cid])

/-- First step of `_disconnect_device` (broker.py 204-206): end the
connection's active call, if any, with peer notification. -/
def disconnectCallPart (b : Broker) (c : ConnId) : Broker × List Msg × List Ev :=
  if (getConn b c).current_call_id ≠ 0 then
    endCall b (getConn b c).current_call_id true none
  else (b, [], [])

/-- Completed `_disconnect_device` (broker.py 200-224): end any active call
with peer notification, drop the registry entry for the connection's own
identifier if one is present, broadcast the shrunk roster, fire
`on_device_disconnected`, close the socket. -/
def disconnectDevice (b : Broker) (c : ConnId) : Broker × List Msg × List Ev :=
  if (getConn b c).device_id ≠ [] ∧
      (lookupA (disconnectCallPart b c).1.devices (getConn b c).device_id).isSome = true then
    let b2 : Broker := { (disconnectCallPart b c).1 with
      devices := eraseKey (disconnectCallPart b c).1.devices (getConn b c).device_id }
    (setConn b2 c (fun cn => { cn with closed := true }),
     (disconnectCallPart b c).2.1 ++ broadcastContacts b2,
     (disconnectCallPart b c).2.2 ++ [Ev.deviceDisconnected (getConn b c).device_id])
  else
    (setConn (disconnectCallPart b c).1 c (fun cn => { cn with closed := true }),
     (disconnectCallPart b c).2.1, (disconnectCallPart b c).2.2)

/-- `_handle_register` (broker.py 269-293): silently drop an empty id; evict
any prior holder of the id through the full disconnect path; record the id on
the connection; insert it into the registry; send the roster to the new
connection; broadcast the roster; fire `on_device_connected`. -/
def handleRegister (b : Broker) (c : ConnId) (payload : Bytes) :
    Broker × List Msg × List Ev :=
  let did := rstripNul payload
  if did = [] then (b, [], [])
  else
    let r1 :=
      match lookupA b.devices did with
      | some old => disconnectDevice b old
      | none => (b, [], [])
    let b2 := setConn r1.1 c (fun cn => { cn with device_id := did })
    let b3 : Broker := { b2 with devices := insertA b2.devices did c }
    (b3, r1.2.1 ++ [sendContacts b3 c] ++ broadcastContacts b3,
      r1.2.2 ++ [Ev.deviceConnected did])

/-- `_handle_invite` (broker.py 295-351): reject an unregistered caller with
`ERROR(PROTOCOL, 0)`, a busy caller with `ERROR(BUSY, 0)`, an unknown target
with `ERROR(NOT_FOUND, 0)`, a busy target with `ERROR(BUSY, 0)`; otherwise
allocate the next call id, insert a `RINGING` call, mark both endpoints, send
`RING(call_id, caller_id ++ NUL)` to the target, arm the timeout and fire
`on_call_started`. -/
def handleInvite (b : Broker) (c : ConnId) (payload : Bytes) :
    Broker × List Msg × List Ev :=
  let target_id := rstripNul payload
  let d := getConn b c
  if d.device_id = [] then
    (b, [sendError c 0 BROKER_ERR_PROTOCOL], [])
  else if d.current_call_id ≠ 0 then
    (b, [sendError c 0 BROKER_ERR_BUSY], [])
  else
    match lookupA b.devices target_id with
    | none => (b, [sendError c 0 BROKER_ERR_NOT_FOUND], [])
    | some t =>
      if (getConn b t).current_call_id ≠ 0 then
        (b, [sendError c 0 BROKER_ERR_BUSY], [])
      else
        let cid := b.next_call_id
        let call : Call := { call_id := cid, caller := c, callee := t,
                             state := .ringing, timeout_armed := true }
        let b1 : Broker := { b with calls := insertA b.calls cid call,
                                    next_call_id := cid + 1 }
        let b2 := setConn b1 c (fun cn => { cn with current_call_id := cid })
        let b3 := setConn b2 t (fun cn => { cn with current_call_id := cid })
        (b3, [mkMsg t BROKER_MSG_RING 0 cid 0 (d.device_id ++ [0])],
          [Ev.callStarted cid d.device_id target_id])

/-- `_handle_answer` (broker.py 353-376): only the callee of a known call may
answer; the timeout is cancelled, the call moves to `IN_CALL` and the caller
receives `ANSWER(call_id)`. -/
def handleAnswer (b : Broker) (c : ConnId) (cid : Nat) :
    Broker × List Msg × List Ev :=
  match lookupA b.calls cid with
  | none => (b, [], [])
  | some call =>
    if call.callee ≠ c then (b, [], [])
    else
      let call2 : Call := { call with state := .inCall, timeout_armed := false }
      let b1 : Broker := { b with calls := insertA b.calls cid call2 }
      (b1, [mkMsg call.caller BROKER_MSG_ANSWER 0 cid 0 []], [])

/-- `_handle_decline` (broker.py 378-396): callee-only; forward the reason to
the caller and destroy the call without `BYE`. -/
def handleDecline (b : Broker) (c : ConnId) (cid : Nat) (reason : Nat) :
    Broker × List Msg × List Ev :=
  match lookupA b.calls cid with
  | none => (b, [], [])
  | some call =>
    if call.callee ≠ c then (b, [], [])
    else
      let r := endCall b cid false none
      (r.1, mkMsg call.caller BROKER_MSG_DECLINE 0 cid 0 [reason] :: r.2.1, r.2.2)

/-- `_handle_hangup` (broker.py 398-405): any known call id is ended with
peer notification, the sender being recorded as `hangup_by`. -/
def handleHangup (b : Broker) (c : ConnId) (cid : Nat) :
    Broker × List Msg × List Ev :=
  match lookupA b.calls cid with
  | none => (b, [], [])
  | some _ => endCall b cid true (some c)

/-- Enqueue one relayed frame for a peer: append `(seq, payload)` to its
bounded audio queue and set its wake event (broker.py 423-425). -/
def enqueueAudio (b : Broker) (p : ConnId) (seq : Nat) (payload : Bytes) : Broker :=
  setConn b p (fun cn =>
    { cn with audio_queue := dequeAppend BROKER_AUDIO_QUEUE_SIZE cn.audio_queue (seq, payload),
              audio_event := true })

/-- `_handle_audio` (broker.py 407-425): relay only when the call exists, is
`IN_CALL` and the sender is one of its endpoints; otherwise drop silently. -/
def handleAudio (b : Broker) (c : ConnId) (cid seq : Nat) (payload : Bytes) : Broker :=
  match lookupA b.calls cid with
  | none => b
  | some call =>
    if call.state ≠ CallState.inCall then b
    else if c = call.caller then enqueueAudio b call.callee seq payload
    else if c = call.callee then enqueueAudio b call.caller seq payload
    else b

/-- `_call_timeout` expiry body (broker.py 467-476): if the call still exists
and is still `RINGING`, send `ERROR(TIMEOUT, call_id)` to the caller and end
the call with peer notification (no `hangup_by`, so both parties get `BYE`). -/
def callTimeoutFire (b : Broker) (cid : Nat) : Broker × List Msg × List Ev :=
  match lookupA b.calls cid with
  | none => (b, [], [])
  | some call =>
    if call.state = CallState.ringing then
      let r := endCall b cid true none
      (r.1, sendError call.caller cid BROKER_ERR_TIMEOUT :: r.2.1, r.2.2)
    else (b, [], [])

/-- `_handle_message` dispatch (broker.py 230-267).  The `last_ping`
timestamp updates on `PING`/`PONG` are not modelled; `PING` is answered with
a `PONG` frame, unknown types are dropped. -/
def handleMessage (b : Broker) (c : ConnId) (msg_type _flags call_id seq : Nat)
    (payload : Bytes) : Broker × List Msg × List Ev :=
  if msg_type = BROKER_MSG_REGISTER then handleRegister b c payload
  else if msg_type = BROKER_MSG_INVITE then handleInvite b c payload
  else if msg_type = BROKER_MSG_ANSWER then handleAnswer b c call_id
  else if msg_type = BROKER_MSG_DECLINE then
    handleDecline b c call_id (payload.headD DECLINE_BUSY)
  else if msg_type = BROKER_MSG_HANGUP then handleHangup b c call_id
  else if msg_type = BROKER_MSG_AUDIO then
    (handleAudio b c call_id seq payload, [], [])
  else if msg_type = BROKER_MSG_PING then
    (b, [mkMsg c BROKER_MSG_PONG 0 0 0 []], [])
  else (b, [], [])

/-- Number of call-table entries having a given connection as an endpoint. -/
def countEntries (calls : List (Nat × Call)) (c : ConnId) : Nat :=
  (calls.filter (fun p => decide (p.2.caller = c ∨ p.2.callee = c))).length

/-- Decidable form of the spec invariant: every connection's
`current_call_id` is non-zero exactly when it is an endpoint of exactly one
call-table entry. -/
def callInvariant (b : Broker) : Bool :=
  b.conns.all (fun p =>
    decide (p.2.current_call_id ≠ 0) == decide (countEntries b.calls p.1 = 1))

/-- Projection keeping only the device up/down observer callbacks. -/
def deviceEvents (es : List Ev) : List Ev :=
  es.filter (fun e =>
    match e with
    | .deviceConnected _ => true
    | .deviceDisconnected _ => true
    | _ => false)

/-- Three freshly accepted, unregistered connections. -/
def exB0 : Broker :=
  { conns := [(0, {}), (1, {}), (2, {})], devices := [], calls := [], next_call_id := 1 }

/-- Connection 0 registered as device `A` (byte 65). -/
def exB1 : Broker := (handleRegister exB0 0 [65]).1

/-- Connections 0 and 1 registered as `A` and `B`. -/
def exB2 : Broker := (handleRegister exB1 1 [66]).1

/-- State after `A` invites `B`: call 1 is `RINGING` with an armed timeout. -/
def exB3 : Broker := (handleInvite exB2 0 [66]).1

/-- State after `B` answers: call 1 is `IN_CALL`. -/
def exB4 : Broker := (handleAnswer exB3 1 1).1

/-! Helper lemmas about the association-list and connection-update
primitives. -/

theorem lookupA_mem [DecidableEq α] {l : List (α × β)} {k : α} {v : β}
    (h : lookupA l k = some v) : (k, v) ∈ l := by
  induction l with
  | nil => simp [lookupA] at h
  | cons hd t ih =>
    obtain ⟨k0, v0⟩ := hd
    by_cases hk : k0 = k
    · subst hk
      simp [lookupA] at h
      simp [h]
    · simp [lookupA, hk] at h
      exact List.mem_cons_of_mem _ (ih h)

theorem lookupA_eraseKey_self [DecidableEq α] (l : List (α × β)) (k : α) :
    lookupA (eraseKey l k) k = none := by
  induction l with
  | nil => rfl
  | cons hd t ih =>
    obtain ⟨k0, v0⟩ := hd
    by_cases hk : k0 = k
    · simpa [eraseKey, hk] using ih
    · simpa [eraseKey, lookupA, hk] using ih

theorem lookupA_append [DecidableEq α] (l₁ l₂ : List (α × β)) (k : α) :
    lookupA (l₁ ++ l₂) k =
      match lookupA l₁ k with
      | some v => some v
      | none => lookupA l₂ k := by
  induction l₁ with
  | nil => simp [lookupA]
  | cons hd t ih =>
    obtain ⟨k0, v0⟩ := hd
    by_cases hk : k0 = k
    · simp [lookupA, hk]
    · simpa [lookupA, hk] using ih

theorem countKey_eraseKey_self [DecidableEq α] (l : List (α × β)) (k : α) :
    countKey (eraseKey l k) k = 0 := by
  induction l with
  | nil => rfl
  | cons hd t ih =>
    obtain ⟨k0, v0⟩ := hd
    by_cases hk : k0 = k
    · simp only [eraseKey, countKey] at ih ⊢
      simp [hk, ih]
    · simp only [eraseKey, countKey] at ih ⊢
      simp [hk, ih]

theorem countKey_append [DecidableEq α] (l₁ l₂ : List (α × β)) (k : α) :
    countKey (l₁ ++ l₂) k = countKey l₁ k + countKey l₂ k := by
  simp [countKey, List.filter_append]

theorem lookupA_mapIf [DecidableEq α] (l : List (α × β)) (c y : α) (f : β → β) :
    lookupA (l.map (fun p => if p.1 = c then (p.1, f p.2) else p)) y
      = if y = c then (lookupA l y).map f else lookupA l y := by
  induction l with
  | nil => simp [lookupA]
  | cons hd t ih =>
    obtain ⟨k0, v0⟩ := hd
    simp only [List.map_cons]
    by_cases hk : k0 = c
    · rw [if_pos (show (k0, v0).1 = c from hk)]
      subst hk
      by_cases hy : y = k0
      · subst hy
        simp [lookupA, ih]
      · have hy' : ¬ k0 = y := fun h => hy h.symm
        simp [lookupA, hy, hy', ih]
    · rw [if_neg (show ¬ (k0, v0).1 = c from hk)]
      by_cases hy : k0 = y
      · subst hy
        simp [lookupA, hk]
      · simp [lookupA, hy, ih]

theorem setConn_devices (b : Broker) (c : ConnId) (f : Conn → Conn) :
    (setConn b c f).devices = b.devices := rfl

theorem setConn_calls (b : Broker) (c : ConnId) (f : Conn → Conn) :
    (setConn b c f).calls = b.calls := rfl

theorem setConn_next (b : Broker) (c : ConnId) (f : Conn → Conn) :
    (setConn b c f).next_call_id = b.next_call_id := rfl

theorem getConn_setConn_self (b : Broker) (c : ConnId) (f : Conn → Conn)
    (h : (lookupA b.conns c).isSome = true) :
    getConn (setConn b c f) c = f (getConn b c) := by
  obtain ⟨v, hv⟩ := Option.isSome_iff_exists.mp h
  simp [getConn, setConn, lookupA_mapIf, hv]

theorem getConn_setConn_ne (b : Broker) (c y : ConnId) (f : Conn → Conn)
    (h : y ≠ c) : getConn (setConn b c f) y = getConn b y := by
  simp [getConn, setConn, lookupA_mapIf, h]

theorem lookupA_setConn_isSome (b : Broker) (c y : ConnId) (f : Conn → Conn) :
    (lookupA (setConn b c f).conns y).isSome = (lookupA b.conns y).isSome := by
  by_cases h : y = c
  · subst h
    simp [setConn, lookupA_mapIf]
  · simp [setConn, lookupA_mapIf, h]

theorem clearIfEq_devices (b : Broker) (c : ConnId) (cid : Nat) :
    (clearIfEq b c cid).devices = b.devices := by
  unfold clearIfEq
  split <;> rfl

theorem clearIfEq_calls (b : Broker) (c : ConnId) (cid : Nat) :
    (clearIfEq b c cid).calls = b.calls := by
  unfold clearIfEq
  split <;> rfl

theorem lookupA_clearIfEq_isSome (b : Broker) (c y : ConnId) (cid : Nat) :
    (lookupA (clearIfEq b c cid).conns y).isSome = (lookupA b.conns y).isSome := by
  unfold clearIfEq
  split
  · exact lookupA_setConn_isSome b c y _
  · rfl

theorem lookupA_mapConst [DecidableEq α] (l : List (α × β)) (k y : α) (v : β) :
    lookupA (l.map (fun p => if p.1 = k then (k, v) else p)) y
      = if y = k then (lookupA l y).map (fun _ => v) else lookupA l y := by
  induction l with
  | nil => simp [lookupA]
  | cons hd t ih =>
    obtain ⟨k0, v0⟩ := hd
    simp only [List.map_cons]
    by_cases hk : k0 = k
    · rw [if_pos (show (k0, v0).1 = k from hk)]
      subst hk
      by_cases hy : y = k0
      · subst hy
        simp [lookupA, ih]
      · have hy' : ¬ k0 = y := fun h => hy h.symm
        simp [lookupA, hy, hy', ih]
    · rw [if_neg (show ¬ (k0, v0).1 = k from hk)]
      by_cases hy : k0 = y
      · subst hy
        simp [lookupA, hk]
      · simp [lookupA, hy, ih]

theorem lookupA_insertA_self [DecidableEq α] (l : List (α × β)) (k : α) (v : β) :
    lookupA (insertA l k v) k = some v := by
  unfold insertA
  split
  · rename_i h
    obtain ⟨w, hw⟩ := Option.isSome_iff_exists.mp h
    simp [lookupA_mapConst, hw]
  · rename_i h
    have hnone : lookupA l k = none := by
      cases hl : lookupA l k with
      | none => rfl
      | some w => rw [hl] at h; simp at h
    rw [lookupA_append, hnone]
    simp [lookupA]

theorem lookupA_insertA_ne [DecidableEq α] (l : List (α × β)) (k y : α) (v : β)
    (h : y ≠ k) : lookupA (insertA l k v) y = lookupA l y := by
  unfold insertA
  split
  · simp [lookupA_mapConst, h]
  · rw [lookupA_append]
    cases hl : lookupA l y with
    | none =>
      have h2 : ¬ k = y := fun hh => h (Eq.symm hh)
      simp [lookupA, h2]
    | some w => rfl

/-! Lemmas about the bounded audio queue (claim C4). -/

theorem dequeAppend_foldl (xs : List α) (q : List α)
    (hq : q.length ≤ BROKER_AUDIO_QUEUE_SIZE) :
    xs.foldl (dequeAppend BROKER_AUDIO_QUEUE_SIZE) q
      = (q ++ xs).drop ((q ++ xs).length - BROKER_AUDIO_QUEUE_SIZE) := by
  induction xs generalizing q with
  | nil =>
    have : q.length - BROKER_AUDIO_QUEUE_SIZE = 0 := by omega
    simp [this]
  | cons x t ih =>
    by_cases hlt : q.length < BROKER_AUDIO_QUEUE_SIZE
    · have hstep : dequeAppend BROKER_AUDIO_QUEUE_SIZE q x = q ++ [x] := by
        simp [dequeAppend, hlt]
      have hlen : (q ++ [x]).length ≤ BROKER_AUDIO_QUEUE_SIZE := by
        simp
        omega
      calc (x :: t).foldl (dequeAppend BROKER_AUDIO_QUEUE_SIZE) q
          = t.foldl (dequeAppend BROKER_AUDIO_QUEUE_SIZE) (q ++ [x]) := by
            simp [hstep]
        _ = ((q ++ [x]) ++ t).drop (((q ++ [x]) ++ t).length - BROKER_AUDIO_QUEUE_SIZE) :=
            ih (q ++ [x]) hlen
        _ = (q ++ x :: t).drop ((q ++ x :: t).length - BROKER_AUDIO_QUEUE_SIZE) := by
            simp
    · have heq : q.length = BROKER_AUDIO_QUEUE_SIZE := by omega
      obtain ⟨y, q', rfl⟩ : ∃ y q', q = y :: q' := by
        cases q with
        | nil => simp [BROKER_AUDIO_QUEUE_SIZE] at heq
        | cons y q' => exact ⟨y, q', rfl⟩
      have hstep : dequeAppend BROKER_AUDIO_QUEUE_SIZE (y :: q') x = q' ++ [x] := by
        unfold dequeAppend
        rw [if_neg hlt]
        rfl
      have hq' : (y :: q').length = BROKER_AUDIO_QUEUE_SIZE := heq
      have hlen : (q' ++ [x]).length ≤ BROKER_AUDIO_QUEUE_SIZE := by
        simp at hq' ⊢
        omega
      have step2 := ih (q' ++ [x]) hlen
      have harith : ((q' ++ [x]) ++ t).length - BROKER_AUDIO_QUEUE_SIZE = t.length := by
        simp at hq' ⊢
        omega
      have harith2 : ((y :: q') ++ x :: t).length - BROKER_AUDIO_QUEUE_SIZE = t.length + 1 := by
        simp at hq' ⊢
        omega
      calc (x :: t).foldl (dequeAppend BROKER_AUDIO_QUEUE_SIZE) (y :: q')
          = t.foldl (dequeAppend BROKER_AUDIO_QUEUE_SIZE) (q' ++ [x]) := by
            simp [hstep]
        _ = ((q' ++ [x]) ++ t).drop (((q' ++ [x]) ++ t).length - BROKER_AUDIO_QUEUE_SIZE) :=
            step2
        _ = (q' ++ x :: t).drop t.length := by rw [harith]; simp
        _ = ((y :: q') ++ x :: t).drop (((y :: q') ++ x :: t).length - BROKER_AUDIO_QUEUE_SIZE) := by
            rw [harith2]
            simp

/-- C4: the per-device audio queue is a bounded FIFO of capacity 10 with
drop-oldest policy.  Starting from any queue within capacity, a run of more
than 10 enqueues with no intervening dequeue leaves exactly the last 10
enqueued frames, in enqueue order (the highest-seq suffix); the resulting
length is the capacity; and a single enqueue at capacity discards exactly
the oldest frame while keeping the others in order.  Enqueues are total
functions (`deque.append` never blocks). -/
theorem audio_queue_bounded_fifo (q xs : List (Nat × Bytes))
    (hq : q.length ≤ BROKER_AUDIO_QUEUE_SIZE)
    (hn : BROKER_AUDIO_QUEUE_SIZE < xs.length) :
    xs.foldl (dequeAppend BROKER_AUDIO_QUEUE_SIZE) q
        = xs.drop (xs.length - BROKER_AUDIO_QUEUE_SIZE) ∧
    (xs.foldl (dequeAppend BROKER_AUDIO_QUEUE_SIZE) q).length = BROKER_AUDIO_QUEUE_SIZE ∧
    (∀ (r : List (Nat × Bytes)) (x : Nat × Bytes),
      r.length = BROKER_AUDIO_QUEUE_SIZE →
      dequeAppend BROKER_AUDIO_QUEUE_SIZE r x = r.tail ++ [x]) := by
  have hmain := dequeAppend_foldl xs q hq
  have harith : (q ++ xs).length - BROKER_AUDIO_QUEUE_SIZE
      = q.length + (xs.length - BROKER_AUDIO_QUEUE_SIZE) := by
    simp
    omega
  have hdrop : (q ++ xs).drop ((q ++ xs).length - BROKER_AUDIO_QUEUE_SIZE)
      = xs.drop (xs.length - BROKER_AUDIO_QUEUE_SIZE) := by
    rw [harith, List.drop_append]
  refine ⟨hmain.trans hdrop, ?_, ?_⟩
  · rw [hmain.trans hdrop, List.length_drop]
    omega
  · intro r x hr
    have : ¬ r.length < BROKER_AUDIO_QUEUE_SIZE := by omega
    simp [dequeAppend, this]

/-- C4 witness: 11 enqueues of frames with seq 1..11 into an empty queue
retain exactly the frames with seq 2..11, in order. -/
theorem audio_queue_bounded_fifo_witness :
    ([] : List (Nat × Bytes)).length ≤ BROKER_AUDIO_QUEUE_SIZE ∧
    BROKER_AUDIO_QUEUE_SIZE <
      ([(1, []), (2, []), (3, []), (4, []), (5, []), (6, []), (7, []), (8, []),
        (9, []), (10, []), (11, [])] : List (Nat × Bytes)).length ∧
    ([(1, []), (2, []), (3, []), (4, []), (5, []), (6, []), (7, []), (8, []),
        (9, []), (10, []), (11, [])] : List (Nat × Bytes)).foldl
        (dequeAppend BROKER_AUDIO_QUEUE_SIZE) []
      = [(2, []), (3, []), (4, []), (5, []), (6, []), (7, []), (8, []),
         (9, []), (10, []), (11, [])] := by
  refine ⟨by decide, by decide, ?_⟩
  have h := audio_queue_bounded_fifo []
    [(1, []), (2, []), (3, []), (4, []), (5, []), (6, []), (7, []), (8, []),
     (9, []), (10, []), (11, [])] (by decide) (by decide)
  rw [h.1]
  decide

/-- Call record created by a successful INVITE (broker.py 326). -/
def inviteCall (cid : Nat) (c t : ConnId) : Call :=
  { call_id := cid, caller := c, callee := t,
    state := CallState.ringing, timeout_armed := true }

/-- C1: `_handle_invite` behaviour.  An INVITE from a sender with an empty
device identifier is answered with `ERROR(PROTOCOL, call_id := 0)` and the
broker state is unchanged (no call created, counter and every
`current_call_id` untouched); a busy sender gets `ERROR(BUSY, 0)`; an
unknown NUL-trimmed target gets `ERROR(NOT_FOUND, 0)`; a busy target gets
`ERROR(BUSY, 0)`; otherwise the next call id is allocated, a `RINGING` call
is inserted, both endpoints' `current_call_id` are set to it, and the target
receives `RING` carrying that call id and the NUL-terminated caller id. -/
theorem invite_handling (b : Broker) (c : ConnId) (payload : Bytes) :
    ((getConn b c).device_id = [] →
      handleInvite b c payload
        = (b, [mkMsg c BROKER_MSG_ERROR 0 0 0 [BROKER_ERR_PROTOCOL]], [])) ∧
    ((getConn b c).device_id ≠ [] → (getConn b c).current_call_id ≠ 0 →
      handleInvite b c payload
        = (b, [mkMsg c BROKER_MSG_ERROR 0 0 0 [BROKER_ERR_BUSY]], [])) ∧
    ((getConn b c).device_id ≠ [] → (getConn b c).current_call_id = 0 →
      lookupA b.devices (rstripNul payload) = none →
      handleInvite b c payload
        = (b, [mkMsg c BROKER_MSG_ERROR 0 0 0 [BROKER_ERR_NOT_FOUND]], [])) ∧
    (∀ t, (getConn b c).device_id ≠ [] → (getConn b c).current_call_id = 0 →
      lookupA b.devices (rstripNul payload) = some t →
      (getConn b t).current_call_id ≠ 0 →
      handleInvite b c payload
        = (b, [mkMsg c BROKER_MSG_ERROR 0 0 0 [BROKER_ERR_BUSY]], [])) ∧
    (∀ t, (getConn b c).device_id ≠ [] → (getConn b c).current_call_id = 0 →
      lookupA b.devices (rstripNul payload) = some t →
      (getConn b t).current_call_id = 0 →
      (lookupA b.conns c).isSome = true → (lookupA b.conns t).isSome = true →
      lookupA (handleInvite b c payload).1.calls b.next_call_id
          = some { call_id := b.next_call_id, caller := c, callee := t,
                   state := CallState.ringing, timeout_armed := true } ∧
        (handleInvite b c payload).1.next_call_id = b.next_call_id + 1 ∧
        (getConn (handleInvite b c payload).1 c).current_call_id = b.next_call_id ∧
        (getConn (handleInvite b c payload).1 t).current_call_id = b.next_call_id ∧
        (handleInvite b c payload).2.1
          = [mkMsg t BROKER_MSG_RING 0 b.next_call_id 0 ((getConn b c).device_id ++ [0])]) := by
  refine ⟨?_, ?_, ?_, ?_, ?_⟩
  · intro h
    simp [handleInvite, sendError, h]
  · intro h1 h2
    simp [handleInvite, sendError, h1, h2]
  · intro h1 h2 h3
    simp [handleInvite, sendError, h1, h2, h3]
  · intro t h1 h2 h3 h4
    simp [handleInvite, sendError, h1, h2, h3, h4]
  · intro t h1 h2 h3 h4 hc ht
    have hbody : handleInvite b c payload
        = (setConn (setConn
            (Broker.mk b.conns b.devices
              (insertA b.calls b.next_call_id (inviteCall b.next_call_id c t))
              (b.next_call_id + 1))
            c (fun cn => { cn with current_call_id := b.next_call_id }))
            t (fun cn => { cn with current_call_id := b.next_call_id }),
          [mkMsg t BROKER_MSG_RING 0 b.next_call_id 0 ((getConn b c).device_id ++ [0])],
          [Ev.callStarted b.next_call_id (getConn b c).device_id (rstripNul payload)]) := by
      simp [handleInvite, inviteCall, h1, h2, h3, h4]
    refine ⟨?_, ?_, ?_, ?_, ?_⟩
    · rw [hbody]
      dsimp only
      rw [setConn_calls, setConn_calls]
      rw [lookupA_insertA_self]
      rfl
    · rw [hbody]
      rfl
    · rw [hbody]
      dsimp only
      by_cases htc : t = c
      · subst htc
        rw [getConn_setConn_self _ _ _ (by rw [lookupA_setConn_isSome]; exact hc)]
      · rw [getConn_setConn_ne _ t c _ (fun hh => htc (Eq.symm hh)),
            getConn_setConn_self _ _ _ (by exact hc)]
    · rw [hbody]
      dsimp only
      rw [getConn_setConn_self _ _ _ (by rw [lookupA_setConn_isSome]; exact ht)]
    · rw [hbody]

/-- C1 witness: in the two-device state `exB2`, the INVITE from `A` to `B`
creates call 1 in state `RINGING`, marks both endpoints and sends `RING` to
`B` with the NUL-terminated caller id. -/
theorem invite_handling_witness :
    lookupA (handleInvite exB2 0 [66]).1.calls 1
        = some { call_id := 1, caller := 0, callee := 1,
                 state := CallState.ringing, timeout_armed := true } ∧
    (handleInvite exB2 0 [66]).1.next_call_id = 2 ∧
    (getConn (handleInvite exB2 0 [66]).1 0).current_call_id = 1 ∧
    (getConn (handleInvite exB2 0 [66]).1 1).current_call_id = 1 ∧
    (handleInvite exB2 0 [66]).2.1 = [mkMsg 1 BROKER_MSG_RING 0 1 0 [65, 0]] := by
  have h := (invite_handling exB2 0 [66]).2.2.2.2 1 (by decide) (by decide)
    (by decide) (by decide) (by decide) (by decide)
  exact h

theorem clearIfEq_pos (b : Broker) (c : ConnId) (cid : Nat)
    (h : (getConn b c).current_call_id = cid) :
    clearIfEq b c cid = setConn b c (fun cn => { cn with current_call_id := 0 }) := by
  unfold clearIfEq
  rw [if_pos h]

theorem clearIfEq_neg (b : Broker) (c : ConnId) (cid : Nat)
    (h : ¬ (getConn b c).current_call_id = cid) :
    clearIfEq b c cid = b := by
  unfold clearIfEq
  rw [if_neg h]

theorem clearTwo_current (m : Broker) (x y : ConnId) (cid : Nat)
    (hx : (getConn m x).current_call_id = cid)
    (hy : (getConn m y).current_call_id = cid)
    (hx1 : (lookupA m.conns x).isSome = true)
    (hy1 : (lookupA m.conns y).isSome = true) :
    (getConn (clearIfEq (clearIfEq m x cid) y cid) x).current_call_id = 0 ∧
    (getConn (clearIfEq (clearIfEq m x cid) y cid) y).current_call_id = 0 := by
  have e1 := clearIfEq_pos m x cid hx
  have hgx : (getConn (clearIfEq m x cid) x).current_call_id = 0 := by
    rw [e1, getConn_setConn_self _ _ _ hx1]
  by_cases hxy : y = x
  · subst hxy
    by_cases hz : (getConn (clearIfEq m y cid) y).current_call_id = cid
    · have e2 := clearIfEq_pos (clearIfEq m y cid) y cid hz
      constructor <;>
        rw [e2, getConn_setConn_self _ _ _ (by rw [e1, lookupA_setConn_isSome]; exact hx1)]
    · have e2 := clearIfEq_neg (clearIfEq m y cid) y cid hz
      constructor <;> (rw [e2]; exact hgx)
  · have hyy : (getConn (clearIfEq m x cid) y).current_call_id = cid := by
      rw [e1, getConn_setConn_ne _ _ _ _ hxy]
      exact hy
    have e2 := clearIfEq_pos (clearIfEq m x cid) y cid hyy
    constructor
    · rw [e2, getConn_setConn_ne _ _ _ _ (fun hh => hxy (Eq.symm hh))]
      exact hgx
    · rw [e2, getConn_setConn_self _ _ _ (by rw [e1, lookupA_setConn_isSome]; exact hy1)]

theorem endCall_body (b : Broker) (cid : Nat) (call : Call) (np : Bool) (hb : Option ConnId)
    (h : lookupA b.calls cid = some call) :
    endCall b cid np hb
      = (clearIfEq (clearIfEq (endCallPop b cid) call.caller cid) call.callee cid,
        (if np then
          (match hb with
            | some hby => [mkMsg (if hby = call.caller then call.callee else call.caller)
                BROKER_MSG_BYE 0 cid 0 []]
            | none => [mkMsg call.caller BROKER_MSG_BYE 0 cid 0 [],
                       mkMsg call.callee BROKER_MSG_BYE 0 cid 0 []])
          else []),
        [Ev.callEnded cid]) := by
  unfold endCall
  rw [h]

theorem endCall_spec (b : Broker) (cid : Nat) (call : Call) (np : Bool) (hb : Option ConnId)
    (h : lookupA b.calls cid = some call)
    (hcaller : (getConn b call.caller).current_call_id = cid)
    (hcallee : (getConn b call.callee).current_call_id = cid)
    (hc1 : (lookupA b.conns call.caller).isSome = true)
    (hc2 : (lookupA b.conns call.callee).isSome = true) :
    (endCall b cid np hb).1.calls = eraseKey b.calls cid ∧
    (endCall b cid np hb).1.devices = b.devices ∧
    (getConn (endCall b cid np hb).1 call.caller).current_call_id = 0 ∧
    (getConn (endCall b cid np hb).1 call.callee).current_call_id = 0 ∧
    (endCall b cid np hb).2.2 = [Ev.callEnded cid] ∧
    ((endCall b cid np hb).2.1 =
      if np then
        (match hb with
          | some hby => [mkMsg (if hby = call.caller then call.callee else call.caller)
              BROKER_MSG_BYE 0 cid 0 []]
          | none => [mkMsg call.caller BROKER_MSG_BYE 0 cid 0 [],
                     mkMsg call.callee BROKER_MSG_BYE 0 cid 0 []])
      else []) := by
  have hbody := endCall_body b cid call np hb h
  have hclear := clearTwo_current (endCallPop b cid) call.caller call.callee cid
    hcaller hcallee hc1 hc2
  refine ⟨?_, ?_, ?_, ?_, ?_, ?_⟩
  · rw [hbody]
    dsimp only
    rw [clearIfEq_calls, clearIfEq_calls]
    rfl
  · rw [hbody]
    dsimp only
    rw [clearIfEq_devices, clearIfEq_devices]
    rfl
  · rw [hbody]
    exact hclear.1
  · rw [hbody]
    exact hclear.2
  · rw [hbody]
  · rw [hbody]

/-- C3: `_handle_audio` relays an AUDIO frame exactly when its call id names
a call in state `IN_CALL` whose endpoints include the sender: then the pair
`(seq, payload)` is appended unmodified to the peer's bounded queue and the
peer's wake event is set, and nothing else in the broker state changes; in
every other case (unknown call id, call still `RINGING`, sender not an
endpoint) the frame is dropped and the state is unchanged. -/
theorem audio_relay (b : Broker) (c : ConnId) (cid seq : Nat) (payload : Bytes) :
    (lookupA b.calls cid = none → handleAudio b c cid seq payload = b) ∧
    (∀ call, lookupA b.calls cid = some call → call.state = CallState.ringing →
        handleAudio b c cid seq payload = b) ∧
    (∀ call, lookupA b.calls cid = some call → c ≠ call.caller → c ≠ call.callee →
        handleAudio b c cid seq payload = b) ∧
    (∀ call, lookupA b.calls cid = some call → call.state = CallState.inCall →
        c = call.caller →
        handleAudio b c cid seq payload = enqueueAudio b call.callee seq payload) ∧
    (∀ call, lookupA b.calls cid = some call → call.state = CallState.inCall →
        c ≠ call.caller → c = call.callee →
        handleAudio b c cid seq payload = enqueueAudio b call.caller seq payload) ∧
    (∀ p, (lookupA b.conns p).isSome = true →
        (getConn (enqueueAudio b p seq payload) p).audio_queue
            = dequeAppend BROKER_AUDIO_QUEUE_SIZE (getConn b p).audio_queue (seq, payload) ∧
        (getConn (enqueueAudio b p seq payload) p).audio_event = true ∧
        (enqueueAudio b p seq payload).calls = b.calls ∧
        (enqueueAudio b p seq payload).devices = b.devices ∧
        (∀ q, q ≠ p → getConn (enqueueAudio b p seq payload) q = getConn b q)) := by
  refine ⟨?_, ?_, ?_, ?_, ?_, ?_⟩
  · intro h
    simp [handleAudio, h]
  · intro call h hst
    simp [handleAudio, h, hst]
  · intro call h hnc hne
    cases hst : call.state with
    | ringing => simp [handleAudio, h, hst]
    | inCall => simp [handleAudio, h, hst, hnc, hne]
  · intro call h hst hcc
    simp [handleAudio, h, hst, hcc]
  · intro call h hst hnc hce
    subst hce
    simp [handleAudio, h, hst, hnc]
  · intro p hp
    refine ⟨?_, ?_, rfl, rfl, ?_⟩
    · unfold enqueueAudio
      rw [getConn_setConn_self _ _ _ hp]
    · unfold enqueueAudio
      rw [getConn_setConn_self _ _ _ hp]
    · intro q hq
      unfold enqueueAudio
      rw [getConn_setConn_ne _ _ _ _ hq]

/-- C3 witness: in the in-call state `exB4`, an AUDIO frame from the caller
on call 1 is appended to the callee's queue and sets its wake event. -/
theorem audio_relay_witness :
    handleAudio exB4 0 1 7 [9, 9] = enqueueAudio exB4 1 7 [9, 9] ∧
    (getConn (handleAudio exB4 0 1 7 [9, 9]) 1).audio_queue = [(7, [9, 9])] ∧
    (getConn (handleAudio exB4 0 1 7 [9, 9]) 1).audio_event = true := by
  have h := (audio_relay exB4 0 1 7 [9, 9]).2.2.2.1
    { call_id := 1, caller := 0, callee := 1,
      state := CallState.inCall, timeout_armed := false }
    (by decide) rfl rfl
  exact ⟨h, by decide, by decide⟩

/-- C5: `_call_timeout` expiry.  If the call is gone, or was answered (state
`IN_CALL`), the expiry does nothing.  If the call is still `RINGING`, the
caller receives `ERROR(TIMEOUT, call_id)` followed by `BYE(call_id)`, the
callee receives `BYE(call_id)`, and the call is destroyed: removed from the
table, both endpoints' `current_call_id` cleared, `on_call_ended` fired. -/
theorem timeout_fire (b : Broker) (cid : Nat) :
    (lookupA b.calls cid = none → callTimeoutFire b cid = (b, [], [])) ∧
    (∀ call, lookupA b.calls cid = some call → call.state = CallState.inCall →
      callTimeoutFire b cid = (b, [], [])) ∧
    (∀ call, lookupA b.calls cid = some call → call.state = CallState.ringing →
      (getConn b call.caller).current_call_id = cid →
      (getConn b call.callee).current_call_id = cid →
      (lookupA b.conns call.caller).isSome = true →
      (lookupA b.conns call.callee).isSome = true →
      (callTimeoutFire b cid).2.1
          = [sendError call.caller cid BROKER_ERR_TIMEOUT,
             mkMsg call.caller BROKER_MSG_BYE 0 cid 0 [],
             mkMsg call.callee BROKER_MSG_BYE 0 cid 0 []] ∧
        (callTimeoutFire b cid).2.2 = [Ev.callEnded cid] ∧
        lookupA (callTimeoutFire b cid).1.calls cid = none ∧
        (getConn (callTimeoutFire b cid).1 call.caller).current_call_id = 0 ∧
        (getConn (callTimeoutFire b cid).1 call.callee).current_call_id = 0) := by
  refine ⟨?_, ?_, ?_⟩
  · intro h
    simp [callTimeoutFire, h]
  · intro call h hst
    simp [callTimeoutFire, h, hst]
  · intro call h hst hcaller hcallee hc1 hc2
    have hfire : callTimeoutFire b cid
        = ((endCall b cid true none).1,
           sendError call.caller cid BROKER_ERR_TIMEOUT :: (endCall b cid true none).2.1,
           (endCall b cid true none).2.2) := by
      simp [callTimeoutFire, h, hst]
    have ecs := endCall_spec b cid call true none h hcaller hcallee hc1 hc2
    refine ⟨?_, ?_, ?_, ?_, ?_⟩
    · rw [hfire]
      dsimp only
      rw [ecs.2.2.2.2.2]
      rfl
    · rw [hfire]
      dsimp only
      rw [ecs.2.2.2.2.1]
    · rw [hfire]
      dsimp only
      rw [ecs.1]
      exact lookupA_eraseKey_self _ _
    · rw [hfire]
      exact ecs.2.2.1
    · rw [hfire]
      exact ecs.2.2.2.1

/-- C5 witness: in state `exB3` (call 1 still `RINGING`), the timeout expiry
sends `ERROR(TIMEOUT, 1)` to the caller, `BYE(1)` to both parties, removes
the call and clears both endpoints. -/
theorem timeout_fire_witness :
    (callTimeoutFire exB3 1).2.1
        = [sendError 0 1 BROKER_ERR_TIMEOUT,
           mkMsg 0 BROKER_MSG_BYE 0 1 0 [], mkMsg 1 BROKER_MSG_BYE 0 1 0 []] ∧
    (callTimeoutFire exB3 1).2.2 = [Ev.callEnded 1] ∧
    lookupA (callTimeoutFire exB3 1).1.calls 1 = none ∧
    (getConn (callTimeoutFire exB3 1).1 0).current_call_id = 0 ∧
    (getConn (callTimeoutFire exB3 1).1 1).current_call_id = 0 := by
  have h := (timeout_fire exB3 1).2.2
    { call_id := 1, caller := 0, callee := 1,
      state := CallState.ringing, timeout_armed := true }
    (by decide) rfl (by decide) (by decide) (by decide) (by decide)
  exact h

/-- C10: `_handle_hangup` destroys any known call regardless of the
sender - the sender is never checked against the call's endpoints - and the
`BYE` notification goes to the callee only when the sender is the caller; in
every other case, including a sender that is neither endpoint, `BYE` goes
only to the caller, never to the callee. -/
theorem hangup_any_sender (b : Broker) (c : ConnId) (cid : Nat) (call : Call)
    (h : lookupA b.calls cid = some call) :
    lookupA (handleHangup b c cid).1.calls cid = none ∧
    (handleHangup b c cid).2.2 = [Ev.callEnded cid] ∧
    (c = call.caller →
      (handleHangup b c cid).2.1 = [mkMsg call.callee BROKER_MSG_BYE 0 cid 0 []]) ∧
    (c ≠ call.caller →
      (handleHangup b c cid).2.1 = [mkMsg call.caller BROKER_MSG_BYE 0 cid 0 []]) := by
  have hh : handleHangup b c cid = endCall b cid true (some c) := by
    simp [handleHangup, h]
  have hbody := endCall_body b cid call true (some c) h
  refine ⟨?_, ?_, ?_, ?_⟩
  · rw [hh, hbody]
    dsimp only
    rw [clearIfEq_calls, clearIfEq_calls]
    exact lookupA_eraseKey_self _ _
  · rw [hh, hbody]
  · intro hcc
    rw [hh, hbody]
    dsimp only
    rw [if_pos hcc]
    rfl
  · intro hnc
    rw [hh, hbody]
    dsimp only
    rw [if_neg hnc]
    rfl

/-- C10 witness: in the in-call state `exB4`, a HANGUP for call 1 sent by
connection 2 - neither the caller nor the callee - still destroys the call,
and `BYE` is sent only to the caller. -/
theorem hangup_any_sender_witness :
    lookupA (handleHangup exB4 2 1).1.calls 1 = none ∧
    (handleHangup exB4 2 1).2.2 = [Ev.callEnded 1] ∧
    (handleHangup exB4 2 1).2.1 = [mkMsg 0 BROKER_MSG_BYE 0 1 0 []] := by
  have h := hangup_any_sender exB4 2 1
    { call_id := 1, caller := 0, callee := 1,
      state := CallState.inCall, timeout_armed := false }
    (by decide)
  exact ⟨h.1, h.2.1, h.2.2.2 (by decide)⟩

theorem endCall_devices (b : Broker) (cid : Nat) (np : Bool) (hb : Option ConnId) :
    (endCall b cid np hb).1.devices = b.devices := by
  unfold endCall
  cases h : lookupA b.calls cid with
  | none => rfl
  | some call =>
    dsimp only
    rw [clearIfEq_devices, clearIfEq_devices]
    rfl

theorem endCall_events_no_device (b : Broker) (cid : Nat) (np : Bool) (hb : Option ConnId) :
    deviceEvents (endCall b cid np hb).2.2 = [] := by
  unfold endCall
  cases h : lookupA b.calls cid with
  | none => rfl
  | some call => rfl

theorem endCall_conns_isSome (b : Broker) (cid : Nat) (np : Bool) (hb : Option ConnId)
    (y : ConnId) :
    (lookupA (endCall b cid np hb).1.conns y).isSome = (lookupA b.conns y).isSome := by
  unfold endCall
  cases h : lookupA b.calls cid with
  | none => rfl
  | some call =>
    dsimp only
    rw [lookupA_clearIfEq_isSome, lookupA_clearIfEq_isSome]
    rfl

theorem dcp_devices (b : Broker) (c : ConnId) :
    (disconnectCallPart b c).1.devices = b.devices := by
  unfold disconnectCallPart
  split
  · exact endCall_devices _ _ _ _
  · rfl

theorem dcp_events_no_device (b : Broker) (c : ConnId) :
    deviceEvents (disconnectCallPart b c).2.2 = [] := by
  unfold disconnectCallPart
  split
  · exact endCall_events_no_device _ _ _ _
  · rfl

theorem dcp_conns_isSome (b : Broker) (c y : ConnId) :
    (lookupA (disconnectCallPart b c).1.conns y).isSome = (lookupA b.conns y).isSome := by
  unfold disconnectCallPart
  split
  · exact endCall_conns_isSome _ _ _ _ _
  · rfl

theorem eraseKey_forall [DecidableEq α] (l : List (α × β)) (k : α) :
    ∀ (a : α) (v : β), (a, v) ∈ eraseKey l k → ¬ a = k := by
  intro a v hm
  unfold eraseKey at hm
  have h := List.of_mem_filter hm
  simpa using h

theorem disconnectDevice_spec (b : Broker) (old : ConnId) (did : Bytes)
    (holdid : (getConn b old).device_id = did) (hne : did ≠ [])
    (hold : (lookupA b.devices did).isSome = true) :
    (disconnectDevice b old).1.devices = eraseKey b.devices did ∧
    deviceEvents (disconnectDevice b old).2.2 = [Ev.deviceDisconnected did] ∧
    (∀ y, (lookupA (disconnectDevice b old).1.conns y).isSome
      = (lookupA b.conns y).isSome) ∧
    ((lookupA b.conns old).isSome = true →
      (getConn (disconnectDevice b old).1 old).closed = true) := by
  have hcond : (getConn b old).device_id ≠ [] ∧
      (lookupA (disconnectCallPart b old).1.devices (getConn b old).device_id).isSome
        = true := by
    rw [holdid, dcp_devices]
    exact ⟨hne, hold⟩
  refine ⟨?_, ?_, ?_, ?_⟩
  · simp only [disconnectDevice]
    rw [if_pos hcond]
    dsimp only
    rw [setConn_devices]
    dsimp only
    rw [dcp_devices, holdid]
  · simp only [disconnectDevice]
    rw [if_pos hcond]
    dsimp only
    unfold deviceEvents
    rw [List.filter_append]
    have h2 := dcp_events_no_device b old
    unfold deviceEvents at h2
    rw [h2, holdid]
    rfl
  · intro y
    simp only [disconnectDevice]
    rw [if_pos hcond]
    dsimp only
    rw [lookupA_setConn_isSome]
    dsimp only
    exact dcp_conns_isSome b old y
  · intro hos
    simp only [disconnectDevice]
    rw [if_pos hcond]
    dsimp only
    rw [getConn_setConn_self _ _ _ (by exact (dcp_conns_isSome b old old).trans hos)]

/-- C7 (amended): a REGISTER carrying a non-empty id already mapped to
another connection first runs the full disconnect path on that old
connection (ending its call if any, removing it from the registry, firing
`on_device_disconnected`, closing its socket) and only then inserts the new
connection - but `_disconnect_device` fires `on_device_disconnected` for the
old connection's currently stored identifier, not for the registry key.
Provided that stored identifier still equals the re-registered id (true in
every state reached without an identifier rebind), the whole event fires
exactly one `on_device_disconnected` followed by exactly one
`on_device_connected` for the id, in that order, and afterwards the registry
maps the id to exactly one connection, the new one. -/
theorem reregister_evicts (b : Broker) (c old : ConnId) (payload did : Bytes)
    (hdid : rstripNul payload = did) (hne : did ≠ [])
    (hold : lookupA b.devices did = some old)
    (holdid : (getConn b old).device_id = did)
    (hoc : old ≠ c)
    (hcs : (lookupA b.conns c).isSome = true)
    (hos : (lookupA b.conns old).isSome = true) :
    deviceEvents (handleRegister b c payload).2.2
        = [Ev.deviceDisconnected did, Ev.deviceConnected did] ∧
    lookupA (handleRegister b c payload).1.devices did = some c ∧
    countKey (handleRegister b c payload).1.devices did = 1 ∧
    (getConn (handleRegister b c payload).1 old).closed = true ∧
    (getConn (handleRegister b c payload).1 c).device_id = did := by
  have hds := disconnectDevice_spec b old did holdid hne (by rw [hold]; rfl)
  have hevs : (handleRegister b c payload).2.2
      = (disconnectDevice b old).2.2 ++ [Ev.deviceConnected did] := by
    simp [handleRegister, hdid, hne, hold]
  have hdevs : (handleRegister b c payload).1.devices
      = insertA (disconnectDevice b old).1.devices did c := by
    simp [handleRegister, hdid, hne, hold, setConn_devices]
  have hconns : (handleRegister b c payload).1.conns
      = (setConn (disconnectDevice b old).1 c
          (fun cn => { cn with device_id := did })).conns := by
    simp [handleRegister, hdid, hne, hold]
  refine ⟨?_, ?_, ?_, ?_, ?_⟩
  · rw [hevs]
    unfold deviceEvents
    rw [List.filter_append]
    have h1 := hds.2.1
    unfold deviceEvents at h1
    rw [h1]
    rfl
  · rw [hdevs]
    exact lookupA_insertA_self _ _ _
  · rw [hdevs, hds.1]
    have hnone := lookupA_eraseKey_self b.devices did
    unfold insertA
    rw [hnone]
    simp [countKey_append, countKey_eraseKey_self, countKey]
    exact eraseKey_forall b.devices did
  · have hg : getConn (handleRegister b c payload).1 old
        = getConn (setConn (disconnectDevice b old).1 c
            (fun cn => { cn with device_id := did })) old := by
      unfold getConn
      rw [hconns]
    rw [hg, getConn_setConn_ne _ _ _ _ hoc]
    exact hds.2.2.2 hos
  · have hg : getConn (handleRegister b c payload).1 c
        = getConn (setConn (disconnectDevice b old).1 c
            (fun cn => { cn with device_id := did })) c := by
      unfold getConn
      rw [hconns]
    rw [hg, getConn_setConn_self _ _ _ (by exact ((hds.2.2.1 c).trans hcs))]

/-- C7 (amended) witness: a new connection 2 re-registering the id of device
`A` (held by connection 0, whose stored identifier is `A`) in state `exB2`
evicts connection 0, fires exactly `on_device_disconnected` then
`on_device_connected` for `A`, and leaves the registry mapping `A` to
connection 2 alone. -/
theorem reregister_evicts_witness :
    deviceEvents (handleRegister exB2 2 [65]).2.2
        = [Ev.deviceDisconnected [65], Ev.deviceConnected [65]] ∧
    lookupA (handleRegister exB2 2 [65]).1.devices [65] = some 2 ∧
    countKey (handleRegister exB2 2 [65]).1.devices [65] = 1 ∧
    (getConn (handleRegister exB2 2 [65]).1 0).closed = true ∧
    (getConn (handleRegister exB2 2 [65]).1 2).device_id = [65] := by
  exact reregister_evicts exB2 2 0 [65] [65] rfl (by decide) (by decide) (by decide)
    (by decide) (by decide) (by decide)

theorem eq_singleton_of_length_one_mem {l : List γ} {x : γ}
    (h1 : l.length = 1) (hx : x ∈ l) : l = [x] := by
  cases l with
  | nil => simp at hx
  | cons a t =>
    cases t with
    | nil =>
      simp at hx
      rw [hx]
    | cons a2 t2 =>
      simp at h1

theorem filter_swap (l : List γ) (p q : γ → Bool) :
    (l.filter p).filter q = (l.filter q).filter p := by
  induction l with
  | nil => rfl
  | cons a t ih =>
    by_cases hp : p a = true <;> by_cases hq : q a = true <;>
      simp [List.filter_cons, hp, hq, ih]

theorem countEntries_eraseKey_zero (calls : List (Nat × Call)) (cid : Nat) (call : Call)
    (c : ConnId) (h : lookupA calls cid = some call)
    (hend : call.caller = c ∨ call.callee = c)
    (h1 : countEntries calls c = 1) :
    countEntries (eraseKey calls cid) c = 0 := by
  have hmem : (cid, call) ∈ calls := lookupA_mem h
  have hpred : (fun p => decide (p.2.caller = c ∨ p.2.callee = c)) (cid, call) = true := by
    simpa using hend
  have hmemf : (cid, call) ∈ calls.filter (fun p => decide (p.2.caller = c ∨ p.2.callee = c)) :=
    List.mem_filter.mpr ⟨hmem, hpred⟩
  have hsingle : calls.filter (fun p => decide (p.2.caller = c ∨ p.2.callee = c))
      = [(cid, call)] :=
    eq_singleton_of_length_one_mem h1 hmemf
  unfold countEntries eraseKey
  rw [filter_swap, hsingle]
  simp

/-- C2 counterexample: in the reachable state `exB3` (call 1 `RINGING` with
an armed timeout task) the invariant holds, but the state `endCallPop exB3 1`
observable at the `await call.timeout_task` suspension point inside
`_end_call` - reached precisely because the timeout task is armed, as the
second conjunct shows - violates it: both participants still carry
`current_call_id = 1` while the call table has no entry.  Hence the removal
of a call and the clearing of its participants' `current_call_id` are NOT
free of suspension points between them, and the invariant does not hold at
every suspension point. -/
theorem end_call_suspension_counterexample :
    callInvariant exB3 = true ∧
    (lookupA exB3.calls 1).map Call.timeout_armed = some true ∧
    callInvariant (endCallPop exB3 1) = false := by
  decide

/-- C2 (amended): for every device d, `d.current_call_id ≠ 0` iff d is an
endpoint of exactly one call-table entry, at every suspension point EXCEPT
inside `_end_call` of a call whose timeout task is still armed: there the
broker suspends on `await call.timeout_task` between popping the call and
clearing the participants, and at that point (`endCallPop`) a participant
still has `current_call_id = cid` while being an endpoint of no entry; once
`_end_call` completes, both participants have `current_call_id = 0` and are
endpoints of no entry, restoring the equivalence. -/
theorem end_call_invariant (b : Broker) (cid : Nat) (call : Call) (np : Bool)
    (hb : Option ConnId)
    (h : lookupA b.calls cid = some call)
    (hcid : cid ≠ 0)
    (hcaller : (getConn b call.caller).current_call_id = cid)
    (hcallee : (getConn b call.callee).current_call_id = cid)
    (h1 : countEntries b.calls call.caller = 1)
    (h2 : countEntries b.calls call.callee = 1)
    (hc1 : (lookupA b.conns call.caller).isSome = true)
    (hc2 : (lookupA b.conns call.callee).isSome = true) :
    countEntries (endCallPop b cid).calls call.caller = 0 ∧
    (getConn (endCallPop b cid) call.caller).current_call_id ≠ 0 ∧
    countEntries (endCall b cid np hb).1.calls call.caller = 0 ∧
    countEntries (endCall b cid np hb).1.calls call.callee = 0 ∧
    (getConn (endCall b cid np hb).1 call.caller).current_call_id = 0 ∧
    (getConn (endCall b cid np hb).1 call.callee).current_call_id = 0 := by
  have hpopcaller : countEntries (endCallPop b cid).calls call.caller = 0 :=
    countEntries_eraseKey_zero b.calls cid call call.caller h (Or.inl rfl) h1
  have hpopcallee : countEntries (endCallPop b cid).calls call.callee = 0 :=
    countEntries_eraseKey_zero b.calls cid call call.callee h (Or.inr rfl) h2
  have hecs := endCall_spec b cid call np hb h hcaller hcallee hc1 hc2
  refine ⟨hpopcaller, ?_, ?_, ?_, hecs.2.2.1, hecs.2.2.2.1⟩
  · rw [show getConn (endCallPop b cid) call.caller = getConn b call.caller from rfl,
      hcaller]
    exact hcid
  · rw [hecs.1]
    exact hpopcaller
  · rw [hecs.1]
    exact hpopcallee

/-- C2 (amended) witness: ending the ringing call 1 of `exB3` shows the
broken intermediate state and the restored final state concretely. -/
theorem end_call_invariant_witness :
    countEntries (endCallPop exB3 1).calls 0 = 0 ∧
    (getConn (endCallPop exB3 1) 0).current_call_id ≠ 0 ∧
    countEntries (endCall exB3 1 true none).1.calls 0 = 0 ∧
    countEntries (endCall exB3 1 true none).1.calls 1 = 0 ∧
    (getConn (endCall exB3 1 true none).1 0).current_call_id = 0 ∧
    (getConn (endCall exB3 1 true none).1 1).current_call_id = 0 := by
  exact end_call_invariant exB3 1
    { call_id := 1, caller := 0, callee := 1,
      state := CallState.ringing, timeout_armed := true }
    true none (by decide) (by decide) (by decide) (by decide) (by decide) (by decide)
    (by decide) (by decide)

/-- State after device `A` (connection 0) sends INVITE for its own id. -/
def exSelf : Broker := (handleInvite exB1 0 [65]).1

/-- C6 counterexample: an INVITE whose NUL-trimmed target id equals the
sender's own registered id passes every check and creates a call whose
caller and callee are the same connection, with `RING` sent back to the
sender - so calls with identical endpoints ARE created. -/
theorem self_invite_counterexample :
    (getConn exB1 0).device_id = [65] ∧
    lookupA exSelf.calls 1
        = some { call_id := 1, caller := 0, callee := 0,
                 state := CallState.ringing, timeout_armed := true } ∧
    (handleInvite exB1 0 [65]).2.1 = [mkMsg 0 BROKER_MSG_RING 0 1 0 [65, 0]] := by
  decide

/-- C6 (amended): every call inserted by a successful INVITE has the sender
as caller and the registry's mapping of the trimmed target id as callee; its
endpoints are distinct exactly when that mapping is not the sender itself.
In particular a self-INVITE (target id mapping back to the sender) succeeds
and creates a call whose caller and callee are the same connection. -/
theorem invite_endpoints_distinct_iff (b : Broker) (c t : ConnId) (payload : Bytes)
    (hid : (getConn b c).device_id ≠ [])
    (hidle : (getConn b c).current_call_id = 0)
    (ht : lookupA b.devices (rstripNul payload) = some t)
    (htidle : (getConn b t).current_call_id = 0) :
    lookupA (handleInvite b c payload).1.calls b.next_call_id
        = some (inviteCall b.next_call_id c t) ∧
    ((inviteCall b.next_call_id c t).caller = (inviteCall b.next_call_id c t).callee
      ↔ c = t) := by
  constructor
  · have hcalls : (handleInvite b c payload).1.calls
        = insertA b.calls b.next_call_id (inviteCall b.next_call_id c t) := by
      simp [handleInvite, inviteCall, hid, hidle, ht, htidle, setConn_calls]
    rw [hcalls]
    exact lookupA_insertA_self _ _ _
  · exact Iff.rfl

/-- C6 (amended) witness: the INVITE from `A` to `B` in `exB2` creates call
1 with caller connection 0 and callee connection 1, distinct endpoints. -/
theorem invite_endpoints_distinct_iff_witness :
    lookupA (handleInvite exB2 0 [66]).1.calls 1 = some (inviteCall 1 0 1) ∧
    ((inviteCall 1 0 1).caller = (inviteCall 1 0 1).callee ↔ (0 : ConnId) = 1) := by
  exact invite_endpoints_distinct_iff exB2 0 1 [66] (by decide) (by decide)
    (by decide) (by decide)

/-- State after connection 0, registered as `A`, registers again as `B`. -/
def exC8 : Broker := (handleRegister exB1 0 [66]).1

/-- C8 counterexample: a second REGISTER on the same connection with a
different id changes the connection's identifier from `A` to `B` (so the
identifier is NOT assigned exactly once), and the registry still retains the
entry mapping `A` to that connection even though its stored identifier is
now `B`. -/
theorem register_rebind_counterexample :
    (getConn exB1 0).device_id = [65] ∧
    (getConn exC8 0).device_id = [66] ∧
    lookupA exC8.devices [65] = some 0 ∧
    lookupA exC8.devices [66] = some 0 := by
  decide

/-- C8 (amended): `_handle_register` overwrites the connection's identifier
unconditionally: a later REGISTER with a different, unused, non-empty id on
an already-registered connection sets the identifier to the new id, inserts
a second registry entry, and leaves the old id's entry in place, still
mapping to this connection although the stored identifier now differs. -/
theorem register_overwrites_identifier (b : Broker) (c : ConnId)
    (payload aId bId : Bytes)
    (_ha : (getConn b c).device_id = aId)
    (hreg : lookupA b.devices aId = some c)
    (hbid : rstripNul payload = bId) (hbNe : bId ≠ []) (hab : aId ≠ bId)
    (hnew : lookupA b.devices bId = none)
    (hc : (lookupA b.conns c).isSome = true) :
    (getConn (handleRegister b c payload).1 c).device_id = bId ∧
    lookupA (handleRegister b c payload).1.devices aId = some c ∧
    lookupA (handleRegister b c payload).1.devices bId = some c := by
  have hdevs : (handleRegister b c payload).1.devices = insertA b.devices bId c := by
    simp [handleRegister, hbid, hbNe, hnew, setConn_devices]
  have hconns : (handleRegister b c payload).1.conns
      = (setConn b c (fun cn => { cn with device_id := bId })).conns := by
    simp [handleRegister, hbid, hbNe, hnew]
  refine ⟨?_, ?_, ?_⟩
  · have hg : getConn (handleRegister b c payload).1 c
        = getConn (setConn b c (fun cn => { cn with device_id := bId })) c := by
      unfold getConn
      rw [hconns]
    rw [hg, getConn_setConn_self _ _ _ hc]
  · rw [hdevs, lookupA_insertA_ne _ _ _ _ hab]
    exact hreg
  · rw [hdevs]
    exact lookupA_insertA_self _ _ _

/-- C8 (amended) witness: connection 0 of `exB1`, registered as `A`,
registers as `B`; afterwards its identifier is `B` and both `A` and `B` map
to it in the registry. -/
theorem register_overwrites_identifier_witness :
    (getConn (handleRegister exB1 0 [66]).1 0).device_id = [66] ∧
    lookupA (handleRegister exB1 0 [66]).1.devices [65] = some 0 ∧
    lookupA (handleRegister exB1 0 [66]).1.devices [66] = some 0 := by
  exact register_overwrites_identifier exB1 0 [66] [65] [66] (by decide) (by decide)
    rfl (by decide) (by decide) (by decide) (by decide)

/-- C7 counterexample: in the reachable state `exC8` the registry still maps
id `A` (bytes `[65]`) to connection 0 - a connection other than the
registering connection 1 - but connection 0's stored identifier has been
rebound to `B` (bytes `[66]`).  A REGISTER of `A` by connection 1 then runs
the disconnect path on connection 0 using its stored identifier, so it fires
`on_device_disconnected` for `B` and none for `A`: the event does not cause
exactly one `on_device_disconnected` for the re-registered id, refuting the
claim as frozen. -/
theorem reregister_stale_counterexample :
    lookupA exC8.devices [65] = some 0 ∧
    (getConn exC8 0).device_id = [66] ∧
    deviceEvents (handleRegister exC8 1 [65]).2.2
        = [Ev.deviceDisconnected [66], Ev.deviceConnected [65]] := by
  decide

theorem msgs_no_ping_endCall (b : Broker) (cid : Nat) (np : Bool) (hb : Option ConnId) :
    ((endCall b cid np hb).2.1.all (fun m => m.msg_type != BROKER_MSG_PING)) = true := by
  unfold endCall
  cases h : lookupA b.calls cid with
  | none => rfl
  | some call => cases np <;> cases hb <;> rfl

theorem msgs_no_ping_timeout (b : Broker) (cid : Nat) :
    ((callTimeoutFire b cid).2.1.all (fun m => m.msg_type != BROKER_MSG_PING)) = true := by
  unfold callTimeoutFire
  cases h : lookupA b.calls cid with
  | none => rfl
  | some call =>
    dsimp only
    split
    · have h2 := msgs_no_ping_endCall b cid true none
      simp only [List.all_cons, h2, Bool.and_true]
      rfl
    · rfl

theorem msgs_no_ping_broadcast (b : Broker) :
    ((broadcastContacts b).all (fun m => m.msg_type != BROKER_MSG_PING)) = true := by
  unfold broadcastContacts
  apply List.all_eq_true.mpr
  intro x hx
  obtain ⟨p, _, rfl⟩ := List.mem_map.mp hx
  rfl

theorem msgs_no_ping_dcp (b : Broker) (c : ConnId) :
    ((disconnectCallPart b c).2.1.all (fun m => m.msg_type != BROKER_MSG_PING)) = true := by
  unfold disconnectCallPart
  split
  · exact msgs_no_ping_endCall _ _ _ _
  · rfl

theorem msgs_no_ping_disconnect (b : Broker) (c : ConnId) :
    ((disconnectDevice b c).2.1.all (fun m => m.msg_type != BROKER_MSG_PING)) = true := by
  unfold disconnectDevice
  split
  · dsimp only
    rw [List.all_append, msgs_no_ping_dcp, msgs_no_ping_broadcast]
    rfl
  · exact msgs_no_ping_dcp _ _

theorem msgs_no_ping_register (b : Broker) (c : ConnId) (payload : Bytes) :
    ((handleRegister b c payload).2.1.all (fun m => m.msg_type != BROKER_MSG_PING)) = true := by
  simp only [handleRegister]
  split
  · rfl
  · cases hl : lookupA b.devices (rstripNul payload) with
    | none =>
      dsimp only
      rw [List.all_append, List.all_append, msgs_no_ping_broadcast]
      rfl
    | some old =>
      dsimp only
      rw [List.all_append, List.all_append, msgs_no_ping_disconnect,
        msgs_no_ping_broadcast]
      rfl

theorem msgs_no_ping_invite (b : Broker) (c : ConnId) (payload : Bytes) :
    ((handleInvite b c payload).2.1.all (fun m => m.msg_type != BROKER_MSG_PING)) = true := by
  simp only [handleInvite]
  split
  · rfl
  · split
    · rfl
    · cases hl : lookupA b.devices (rstripNul payload) with
      | none => rfl
      | some t =>
        dsimp only
        split
        · rfl
        · rfl

theorem msgs_no_ping_answer (b : Broker) (c : ConnId) (cid : Nat) :
    ((handleAnswer b c cid).2.1.all (fun m => m.msg_type != BROKER_MSG_PING)) = true := by
  unfold handleAnswer
  cases h : lookupA b.calls cid with
  | none => rfl
  | some call =>
    dsimp only
    split
    · rfl
    · rfl

theorem msgs_no_ping_decline (b : Broker) (c : ConnId) (cid reason : Nat) :
    ((handleDecline b c cid reason).2.1.all (fun m => m.msg_type != BROKER_MSG_PING)) = true := by
  unfold handleDecline
  cases h : lookupA b.calls cid with
  | none => rfl
  | some call =>
    dsimp only
    split
    · rfl
    · dsimp only
      rw [List.all_cons, msgs_no_ping_endCall]
      rfl

theorem msgs_no_ping_hangup (b : Broker) (c : ConnId) (cid : Nat) :
    ((handleHangup b c cid).2.1.all (fun m => m.msg_type != BROKER_MSG_PING)) = true := by
  unfold handleHangup
  cases h : lookupA b.calls cid with
  | none => rfl
  | some call => exact msgs_no_ping_endCall _ _ _ _

/-- C9: the broker never emits a `PING` frame.  Every frame written while
handling any incoming message - including the `PONG` reply to a received
`PING`, roster broadcasts, call signalling and errors - and every frame
written on call-timeout expiry has a message type different from
`BROKER_MSG_PING` (0x19); `BROKER_PING_INTERVAL` is imported but never used,
so no periodic keepalive is generated at all, on idle connections or
otherwise. -/
theorem broker_never_emits_ping (b : Broker) (c : ConnId)
    (mt fl cid seq : Nat) (payload : Bytes) :
    ((handleMessage b c mt fl cid seq payload).2.1.all
      (fun m => m.msg_type != BROKER_MSG_PING)) = true ∧
    ((callTimeoutFire b cid).2.1.all (fun m => m.msg_type != BROKER_MSG_PING)) = true := by
  refine ⟨?_, msgs_no_ping_timeout b cid⟩
  unfold handleMessage
  split
  · exact msgs_no_ping_register _ _ _
  · split
    · exact msgs_no_ping_invite _ _ _
    · split
      · exact msgs_no_ping_answer _ _ _
      · split
        · exact msgs_no_ping_decline _ _ _ _
        · split
          · exact msgs_no_ping_hangup _ _ _
          · split
            · rfl
            · split
              · rfl
              · rfl

end Intercom
